import Mathlib

set_option allowUnsafeReducibility true
set_option maxRecDepth 40000

/-
Shallow embedding of the Pluribus particle-simulation engine
(src/PluribusParticlesCanvas.tsx).

Numbers are modelled as rationals.  The transcendental routines of the host
math library (sqrt, cos, sin, atan2, hypot, and the constant pi) are
abstracted into a MathOps record, and every random draw is read from an
explicit stream with a threaded index, mirroring the sequential consumption
of the global random source in the code.
-/

namespace Pluribus

/-- Abstraction of the host math library used by the engine. -/
structure MathOps where
  sqrt : ℚ → ℚ
  cos : ℚ → ℚ
  sin : ℚ → ℚ
  atan2 : ℚ → ℚ → ℚ
  hypot : ℚ → ℚ → ℚ
  pi : ℚ

/-- The Config record of the source (all numeric sliders plus two flags). -/
structure Config where
  waveSpeed : ℚ
  waveInterval : ℚ
  waveThickness : ℚ
  radialKick : ℚ
  noiseKick : ℚ
  returnStrength : ℚ
  bounceProb : ℚ
  ambientCount : ℚ
  repulsionStrength : ℚ
  repulsionRadius : ℚ
  paused : Bool
  skipIntro : Bool

/-- The Particle record of the source. -/
structure Particle where
  baseX : ℚ
  baseY : ℚ
  x : ℚ
  y : ℚ
  vx : ℚ
  vy : ℚ
  dist : ℚ
  angle : ℚ
  isText : Bool
  activation : ℚ
  jitterX : ℚ
  jitterY : ℚ
  phase : ℚ
  friction : ℚ
  mass : ℚ
  radius : ℚ
deriving Inhabited, DecidableEq

/-- The AmbientParticle record of the source. -/
structure AmbientParticle where
  baseX : ℚ
  baseY : ℚ
  x : ℚ
  y : ℚ
  vx : ℚ
  vy : ℚ
  friction : ℚ
  mass : ℚ
  radius : ℚ
deriving Inhabited, DecidableEq

/-- A wave carries only its current radius. -/
structure Wave where
  radius : ℚ
deriving Inhabited, DecidableEq

/-- The pointer sample (mouseRef). -/
structure Mouse where
  x : ℚ
  y : ℚ
  active : Bool

/-- The mutable simulation state closed over by the animation loop. -/
structure SimState where
  particles : List Particle
  ambient : List AmbientParticle
  waves : List Wave
  accumulatedTime : ℚ
  timeSinceLastWave : ℚ

/-- clamp(v, a, b) = Math.max(a, Math.min(b, v)). -/
def clampQ (v a b : ℚ) : ℚ := max a (min b v)

/-- easeOutCubic(t) = 1 - (1 - t)^3. -/
def easeOutCubic (t : ℚ) : ℚ := 1 - (1 - t) ^ 3

/-- randRange(min, max) = min + draw * (max - min), for one random draw. -/
def randRange (lo hi draw : ℚ) : ℚ := lo + draw * (hi - lo)

/-! ### Collision resolution (spatial grid pass) -/

/-- The four mutable physics fields touched by collision resolution. -/
structure Phys where
  x : ℚ
  y : ℚ
  vx : ℚ
  vy : ℚ
deriving DecidableEq

def Particle.phys (p : Particle) : Phys := ⟨p.x, p.y, p.vx, p.vy⟩

def Particle.withPhys (p : Particle) (q : Phys) : Particle :=
  { p with x := q.x, y := q.y, vx := q.vx, vy := q.vy }

def AmbientParticle.phys (a : AmbientParticle) : Phys := ⟨a.x, a.y, a.vx, a.vy⟩

def AmbientParticle.withPhys (a : AmbientParticle) (q : Phys) : AmbientParticle :=
  { a with x := q.x, y := q.y, vx := q.vx, vy := q.vy }

/-- allParticles = [...particles, ...ambientParticles]; the two backing lists
are kept separate and addressed through a joint index, mirroring how the
collision pass mutates the very objects the later loops iterate. -/
abbrev BodyState := List Particle × List AmbientParticle

def bodyCount (st : BodyState) : ℕ := st.1.length + st.2.length

def bodyPhys (st : BodyState) (i : ℕ) : Phys :=
  if h : i < st.1.length then (st.1.get ⟨i, h⟩).phys
  else if h2 : i - st.1.length < st.2.length then (st.2.get ⟨i - st.1.length, h2⟩).phys
  else ⟨0, 0, 0, 0⟩

def bodyMass (st : BodyState) (i : ℕ) : ℚ :=
  if h : i < st.1.length then (st.1.get ⟨i, h⟩).mass
  else if h2 : i - st.1.length < st.2.length then (st.2.get ⟨i - st.1.length, h2⟩).mass
  else 1

def bodyRadius (st : BodyState) (i : ℕ) : ℚ :=
  if h : i < st.1.length then (st.1.get ⟨i, h⟩).radius
  else if h2 : i - st.1.length < st.2.length then (st.2.get ⟨i - st.1.length, h2⟩).radius
  else 0

def setBodyPhys (st : BodyState) (i : ℕ) (q : Phys) : BodyState :=
  if h : i < st.1.length then (st.1.set i ((st.1.get ⟨i, h⟩).withPhys q), st.2)
  else if h2 : i - st.1.length < st.2.length then
    (st.1, st.2.set (i - st.1.length) ((st.2.get ⟨i - st.1.length, h2⟩).withPhys q))
  else st

/-- The damping factor applied to each velocity change (COLLISION_DAMPING). -/
def COLLISION_DAMPING : ℚ := 17 / 20

/-- One pairwise resolution between joint indices i and j: positional
correction always happens for a colliding pair; the velocity exchange is
skipped (continue) when the pair is already separating along the normal. -/
def resolvePair (ops : MathOps) (st : BodyState) (i j : ℕ) : BodyState :=
  let p1 := bodyPhys st i
  let p2 := bodyPhys st j
  let dx := p2.x - p1.x
  let dy := p2.y - p1.y
  let distSq := dx * dx + dy * dy
  let minDist := bodyRadius st i + bodyRadius st j
  if distSq < minDist * minDist ∧ 1 / 1000 < distSq then
    let dist := ops.sqrt distSq
    let overlap := minDist - dist
    let m1 := bodyMass st i
    let m2 := bodyMass st j
    let totalMass := m1 + m2
    let m1Share := m2 / totalMass
    let m2Share := m1 / totalMass
    let nx := dx / dist
    let ny := dy / dist
    let sepX := nx * overlap * (1 / 2)
    let sepY := ny * overlap * (1 / 2)
    let x1 := p1.x - sepX * 2 * m1Share
    let y1 := p1.y - sepY * 2 * m1Share
    let x2 := p2.x + sepX * 2 * m2Share
    let y2 := p2.y + sepY * 2 * m2Share
    let v1n := p1.vx * nx + p1.vy * ny
    let v2n := p2.vx * nx + p2.vy * ny
    if v1n < v2n then
      setBodyPhys (setBodyPhys st i ⟨x1, y1, p1.vx, p1.vy⟩) j ⟨x2, y2, p2.vx, p2.vy⟩
    else
      let v1nFinal := (v1n * (m1 - m2) + 2 * m2 * v2n) / totalMass
      let v2nFinal := (v2n * (m2 - m1) + 2 * m1 * v1n) / totalMass
      let dv1n := v1nFinal - v1n
      let dv2n := v2nFinal - v2n
      setBodyPhys
        (setBodyPhys st i
          ⟨x1, y1, p1.vx + dv1n * nx * COLLISION_DAMPING,
            p1.vy + dv1n * ny * COLLISION_DAMPING⟩)
        j
        ⟨x2, y2, p2.vx + dv2n * nx * COLLISION_DAMPING,
          p2.vy + dv2n * ny * COLLISION_DAMPING⟩
  else st

/-- Math.floor(q / CELL_SIZE) with CELL_SIZE = 6 (Rat.floor agrees with the
mathematical floor, see intFloor_eq_ratFloor below). -/
def cellKey (q : ℚ) : ℤ := (q / 6).floor

/-- The full collision pass: the sparse grid is keyed by the cell of each
position each body had at entry to the pass, while the outer loop
recomputes the cell of the querying body from its current (possibly
already corrected)
position. -/
def collisionPhase (ops : MathOps) (st0 : BodyState) : BodyState :=
  let n := bodyCount st0
  let gridCell : ℕ → ℤ × ℤ :=
    fun j => (cellKey (bodyPhys st0 j).x, cellKey (bodyPhys st0 j).y)
  (List.range n).foldl
    (fun st i =>
      let cx := cellKey (bodyPhys st i).x
      let cy := cellKey (bodyPhys st i).y
      ([-1, 0, 1] : List ℤ).foldl
        (fun st ox =>
          ([-1, 0, 1] : List ℤ).foldl
            (fun st oy =>
              ((List.range n).filter (fun j => gridCell j = (cx + ox, cy + oy))).foldl
                (fun st j => if j = i then st else resolvePair ops st i j)
                st)
            st)
        st)
    st0

/-! ### Per-particle force accumulation, integration and activation -/

/-- Membership of a particle (by its static spawn distance) in the band
of a wave: the kick is skipped when bandDist is at least the band thickness. -/
def inWaveBand (waveThickness d : ℚ) (w : Wave) : Bool :=
  decide (|d - w.radius| < waveThickness)

/-- The activation update of the tracker, written over the inputs it reads:
the skip-intro flag, the first live wave, and the static spawn
distance (never its live position). -/
def revealUpdate (skipIntro : Bool) (firstWave : Option Wave) (isText : Bool)
    (activation dist : ℚ) : ℚ :=
  if isText then
    if skipIntro then 1
    else
      match firstWave with
      | none => activation
      | some w =>
        if activation < 1 then
          let bandIn := w.radius - 40
          let bandOut := bandIn + 140
          if dist < bandIn then 1
          else if dist < bandOut then max activation (1 - (dist - bandIn) / 140)
          else activation
        else activation
  else activation

/-- The wave-kick accumulation for one particle over one wave, threading the
random index (one draw for the bounce test, one more when it fires; no draw
at all for out-of-band waves or non-text particles). -/
def waveKick (ops : MathOps) (cfg : Config) (time : ℚ) (rand : ℕ → ℚ)
    (p : Particle) (acc : ℚ × ℚ × ℕ) (w : Wave) : ℚ × ℚ × ℕ :=
  let kx := acc.1
  let ky := acc.2.1
  let r := acc.2.2
  let fade := clampQ ((w.radius - 10) / max 1 (140 - 10)) 0 1
  if inWaveBand cfg.waveThickness p.dist w then
    let bandDist := |p.dist - w.radius|
    let tBand := 1 - bandDist / cfg.waveThickness
    let tBandSmooth := tBand * tBand * (3 - 2 * tBand)
    let dirX := ops.cos p.angle
    let dirY := ops.sin p.angle
    let noiseAngle := p.phase + time * (7 / 10000) + w.radius * (2 / 1000)
    let nx := ops.cos noiseAngle
    let ny := ops.sin noiseAngle
    let mix := clampQ cfg.noiseKick 0 1
    let kickStrength := cfg.radialKick * fade
    let fx := (dirX * (1 - mix) + nx * mix) * kickStrength * tBandSmooth
    let fy := (dirY * (1 - mix) + ny * mix) * kickStrength * tBandSmooth
    let kx := kx + fx
    let ky := ky + fy
    if p.isText then
      if rand r < cfg.bounceProb * tBand * (1 / 2) then
        let extra := randRange (4 / 10) 1 (rand (r + 1))
        (kx + dirX * extra, ky + dirY * extra, r + 2)
      else (kx, ky, r + 1)
    else (kx, ky, r)
  else (kx, ky, r)

/-- The tick of one particle: wave kicks, pointer repulsion, spring return,
friction, integration, then the activation update. -/
def stepParticle (ops : MathOps) (cfg : Config) (time : ℚ) (firstWave : Option Wave)
    (waves : List Wave) (mouseLX mouseLY : ℚ) (mouseActive : Bool)
    (rand : ℕ → ℚ) (p : Particle) (r : ℕ) : Particle × ℕ :=
  let kick := waves.foldl (waveKick ops cfg time rand p) (0, 0, r)
  let kx := kick.1
  let ky := kick.2.1
  let r1 := kick.2.2
  let km :=
    if mouseActive then
      let dx := p.x - mouseLX
      let dy := p.y - mouseLY
      let dist := ops.hypot dx dy
      if dist < cfg.repulsionRadius then
        let t := 1 - dist / cfg.repulsionRadius
        let force := t * t * t * cfg.repulsionStrength
        let ang := ops.atan2 dy dx
        let acc := force / p.mass
        (kx + ops.cos ang * acc, ky + ops.sin ang * acc)
      else (kx, ky)
    else (kx, ky)
  let vx := p.vx + km.1
  let vy := p.vy + km.2
  let targetX := p.baseX + p.jitterX
  let targetY := p.baseY + p.jitterY
  let springAccel := cfg.returnStrength / p.mass
  let vx := vx + (targetX - p.x) * springAccel
  let vy := vy + (targetY - p.y) * springAccel
  let vx := vx * p.friction
  let vy := vy * p.friction
  let x := p.x + vx
  let y := p.y + vy
  let act := revealUpdate cfg.skipIntro firstWave p.isText p.activation p.dist
  ({ p with x := x, y := y, vx := vx, vy := vy, activation := act }, r1)

/-- The particle loop in list order, threading the random index. -/
def stepParticles (ops : MathOps) (cfg : Config) (time : ℚ) (firstWave : Option Wave)
    (waves : List Wave) (mouseLX mouseLY : ℚ) (mouseActive : Bool)
    (rand : ℕ → ℚ) : List Particle → ℕ → List Particle × ℕ
  | [], r => ([], r)
  | p :: ps, r =>
    let h := stepParticle ops cfg time firstWave waves mouseLX mouseLY mouseActive rand p r
    let t := stepParticles ops cfg time firstWave waves mouseLX mouseLY mouseActive rand ps h.2
    (h.1 :: t.1, t.2)

/-- The tick of one ambient dust particle: random drift (two draws), pointer
repulsion at half strength, friction, integration. -/
def stepAmbient (ops : MathOps) (cfg : Config) (mouseLX mouseLY : ℚ)
    (mouseActive : Bool) (rand : ℕ → ℚ) (a : AmbientParticle) (r : ℕ) :
    AmbientParticle × ℕ :=
  let x := a.x + (rand r - 1 / 2) * (1 / 10)
  let y := a.y + (rand (r + 1) - 1 / 2) * (1 / 10)
  let v :=
    if mouseActive then
      let dx := x - mouseLX
      let dy := y - mouseLY
      let dist := ops.hypot dx dy
      if dist < cfg.repulsionRadius then
        let t := 1 - dist / cfg.repulsionRadius
        let force := t * t * t * cfg.repulsionStrength * (1 / 2)
        let ang := ops.atan2 dy dx
        (a.vx + ops.cos ang * force / a.mass, a.vy + ops.sin ang * force / a.mass)
      else (a.vx, a.vy)
    else (a.vx, a.vy)
  let vx := v.1 * a.friction
  let vy := v.2 * a.friction
  ({ a with x := x + vx, y := y + vy, vx := vx, vy := vy }, r + 2)

/-- The ambient dust loop in list order, threading the random index. -/
def stepAmbients (ops : MathOps) (cfg : Config) (mouseLX mouseLY : ℚ)
    (mouseActive : Bool) (rand : ℕ → ℚ) :
    List AmbientParticle → ℕ → List AmbientParticle × ℕ
  | [], r => ([], r)
  | a :: as_, r =>
    let h := stepAmbient ops cfg mouseLX mouseLY mouseActive rand a r
    let t := stepAmbients ops cfg mouseLX mouseLY mouseActive rand as_ h.2
    (h.1 :: t.1, t.2)

/-! ### Wave scheduling -/

/-- The unpaused wave phase: grow every radius by delta * waveSpeed, shift
dead waves off the front, then run the two spawn rules. -/
def waveUpdate (ops : MathOps) (cfg : Config) (width height delta : ℚ)
    (waves : List Wave) (tslw : ℚ) : List Wave × ℚ :=
  let grown := waves.map (fun w => Wave.mk (w.radius + delta * cfg.waveSpeed))
  let maxDist := ops.hypot width height + 200
  let kept := grown.dropWhile (fun w => decide (maxDist < w.radius))
  let t := tslw + delta
  if kept.length = 0 ∧ delta ≤ t then (kept ++ [Wave.mk 0], 0)
  else if cfg.waveInterval < t then (kept ++ [Wave.mk 0], 0)
  else (kept, t)

/-! ### The full tick (one call of draw, state effects only) -/

/-- One frame of the draw loop: time accumulation and the wave phase (both
gated on the paused flag), the zoom and local-pointer computation, the
collision pass over the combined particle list, the particle loop, and the
ambient dust loop.  Returns the new state and the advanced random index. -/
def tick (ops : MathOps) (width height : ℚ) (cfg : Config) (mouse : Mouse)
    (delta : ℚ) (rand : ℕ → ℚ) (s : SimState) (r : ℕ) : SimState × ℕ :=
  let accT := if cfg.paused then s.accumulatedTime else s.accumulatedTime + delta
  let time := accT
  let wv :=
    if cfg.paused then (s.waves, s.timeSinceLastWave)
    else waveUpdate ops cfg width height delta s.waves s.timeSinceLastWave
  let waves := wv.1
  let zoom :=
    if cfg.skipIntro then 1
    else 3 + (1 - 3) * easeOutCubic (clampQ (time / 4800) 0 1)
  let firstWave := waves.head?
  let mouseLX := (mouse.x - width / 2) / zoom
  let mouseLY := (mouse.y - height / 2) / zoom
  let st := collisionPhase ops (s.particles, s.ambient)
  let pr := stepParticles ops cfg time firstWave waves mouseLX mouseLY mouse.active rand st.1 r
  let ar := stepAmbients ops cfg mouseLX mouseLY mouse.active rand st.2 pr.2
  (⟨pr.1, ar.1, waves, accT, wv.2⟩, ar.2)

/-! ### Mask build (createMask): spawn of particles and ambient dust.
The rasterized bitmap is abstracted as an alpha function over pixel
coordinates; the grid walk, bounding box, wave origin, stochastic keep,
and ambient top-up follow the source. -/

/-- TEXT_RADIUS = 1.1. -/
def TEXT_RADIUS : ℚ := 11 / 10

/-- BG_RADIUS = 1.0. -/
def BG_RADIUS : ℚ := 1

/-- The stride-3 grid walk, outer loop over y, inner over x. -/
def gridPoints (width height : ℕ) : List (ℕ × ℕ) :=
  ((List.range height).filter (fun y => y % 3 == 0)).flatMap
    (fun y => ((List.range width).filter (fun x => x % 3 == 0)).map (fun x => (x, y)))

/-- The foreground bounding box (minX, maxX, minY, maxY) over grid points
with alpha above 128; none models the all-Infinity initial state. -/
def scanBox (alpha : ℕ → ℕ → ℕ) (width height : ℕ) : Option (ℕ × ℕ × ℕ × ℕ) :=
  (gridPoints width height).foldl
    (fun acc pt =>
      if 128 < alpha pt.1 pt.2 then
        match acc with
        | none => some (pt.1, pt.1, pt.2, pt.2)
        | some b => some (min b.1 pt.1, max b.2.1 pt.1, min b.2.2.1 pt.2, max b.2.2.2 pt.2)
      else acc)
    none

/-- approxAmbientTarget = Math.max(10, Math.floor(cfg.ambientCount)). -/
def ambientTarget (cfg : Config) : ℤ := max 10 cfg.ambientCount.floor

/-- One grid cell of the spawn loop: the keep test (one draw), the particle
construction, and the conditional promotion into the ambient pool. -/
def spawnStep (ops : MathOps) (alpha : ℕ → ℕ → ℕ) (textCenterX textCenterY woX woY : ℚ)
    (target : ℤ) (rand : ℕ → ℚ) (st : List Particle × List AmbientParticle × ℕ)
    (pt : ℕ × ℕ) : List Particle × List AmbientParticle × ℕ :=
  let a := alpha pt.1 pt.2
  let isText : Bool := decide (128 < a)
  let r := st.2.2
  let keep : Bool := if isText then decide (¬ 17 / 20 < rand r) else decide (¬ 11 / 50 < rand r)
  if keep then
    let baseX := (pt.1 : ℚ) - textCenterX
    let baseY := (pt.2 : ℚ) - textCenterY
    let jitterX := if isText then randRange (-(2 / 10)) (2 / 10) (rand (r + 1))
      else randRange (-((1 / 2) * 3)) ((1 / 2) * 3) (rand (r + 1))
    let jitterY := if isText then randRange (-(2 / 10)) (2 / 10) (rand (r + 2))
      else randRange (-((1 / 2) * 3)) ((1 / 2) * 3) (rand (r + 2))
    let dx := (pt.1 : ℚ) - woX
    let dy := (pt.2 : ℚ) - woY
    let p : Particle :=
      { baseX := baseX, baseY := baseY, x := baseX + jitterX, y := baseY + jitterY,
        vx := 0, vy := 0, dist := ops.hypot dx dy, angle := ops.atan2 dy dx,
        isText := isText, activation := if isText then 0 else 1,
        jitterX := jitterX, jitterY := jitterY, phase := rand (r + 3) * ops.pi * 2,
        friction := randRange (92 / 100) (97 / 100) (rand (r + 4)),
        mass := randRange (6 / 10) (14 / 10) (rand (r + 5)), radius := TEXT_RADIUS }
    let ps := st.1 ++ [p]
    if ¬ isText ∧ (st.2.1.length : ℤ) < target then
      if rand (r + 6) < 1 / 10 then
        let amb : AmbientParticle :=
          { baseX := baseX, baseY := baseY, x := baseX + jitterX, y := baseY + jitterY,
            vx := 0, vy := 0, friction := randRange (90 / 100) (96 / 100) (rand (r + 7)),
            mass := randRange (5 / 10) (15 / 10) (rand (r + 8)), radius := BG_RADIUS }
        (ps, st.2.1 ++ [amb], r + 9)
      else (ps, st.2.1, r + 7)
    else (ps, st.2.1, r + 6)
  else (st.1, st.2.1, r + 1)

/-- The dust particle synthesized by one top-up iteration: a random home
position across the canvas extent, current position pinned at the origin. -/
def topUpParticle (width height : ℚ) (rand : ℕ → ℚ) (r : ℕ) : AmbientParticle :=
  { baseX := randRange (-(width * (1 / 2))) (width * (1 / 2)) (rand r),
    baseY := randRange (-(height * (1 / 2))) (height * (1 / 2)) (rand (r + 1)),
    x := 0, y := 0, vx := 0, vy := 0,
    friction := randRange (90 / 100) (96 / 100) (rand (r + 2)),
    mass := randRange (5 / 10) (15 / 10) (rand (r + 3)), radius := BG_RADIUS }

/-- The top-up while loop: synthesize ambient dust until the target count
is reached; the fuel argument is the remaining deficit. -/
def topUpAmbient (width height : ℚ) (rand : ℕ → ℚ) :
    ℕ → List AmbientParticle → ℕ → List AmbientParticle × ℕ
  | 0, l, r => (l, r)
  | k + 1, l, r => topUpAmbient width height rand k (l ++ [topUpParticle width height rand r]) (r + 4)

/-- Result of a mask build. -/
structure MaskOut where
  particles : List Particle
  ambient : List AmbientParticle
  waveOriginX : ℚ
  waveOriginY : ℚ

/-- The full mask build: early return on degenerate canvas, bounding box and
wave origin, spawn walk, then ambient top-up. -/
def createMask (ops : MathOps) (cfg : Config) (alpha : ℕ → ℕ → ℕ)
    (width height wordLen : ℕ) (rand : ℕ → ℚ) (r : ℕ) : MaskOut × ℕ :=
  if width = 0 ∨ height = 0 then (⟨[], [], 0, 0⟩, r)
  else
    let box := scanBox alpha width height
    let textCenterX : ℚ :=
      match box with
      | none => (width : ℚ) / 2
      | some b => ((b.1 : ℚ) + (b.2.1 : ℚ)) / 2
    let textCenterY : ℚ :=
      match box with
      | none => (height : ℚ) / 2
      | some b => ((b.2.2.1 : ℚ) + (b.2.2.2 : ℚ)) / 2
    let numLetters : ℚ := (max 1 wordLen : ℕ)
    let totalWidth : ℚ :=
      match box with
      | none => 1
      | some b => max 1 ((b.2.1 : ℚ) - (b.1 : ℚ))
    let approxLetterWidth := totalWidth / max 1 numLetters
    let woX : ℚ :=
      match box with
      | none => (width : ℚ) / 2
      | some b => (b.1 : ℚ) + approxLetterWidth * (1 / 2)
    let woY := textCenterY
    let target := ambientTarget cfg
    let spawn := (gridPoints width height).foldl
      (spawnStep ops alpha textCenterX textCenterY woX woY target rand) ([], [], r)
    let fuel := (target - (spawn.2.1.length : ℤ)).toNat
    let topped := topUpAmbient (width : ℚ) (height : ℚ) rand fuel spawn.2.1 spawn.2.2
    (⟨spawn.1, topped.1, woX, woY⟩, topped.2)

/-! ### Concrete fixtures for witnesses and counterexamples -/

/-- A concrete math-ops instance for evaluation (sqrt as the identity is
exact at 1, the only point where witnesses evaluate it). -/
def opsA : MathOps := ⟨fun q => q, fun _ => 0, fun _ => 0, fun _ _ => 0, fun a b => a + b, 0⟩

/-- A concrete random stream. -/
def randA : ℕ → ℚ := fun _ => 0

/-- The default configuration of the source with the paused flag set. -/
def cfgPaused : Config :=
  ⟨12 / 100, 1250, 32, 2 / 10, 5 / 100, 1, 8 / 1000, 0, 20, 4, true, true⟩

/-- A running configuration with unit return strength and forces off. -/
def cfgRun : Config := ⟨12 / 100, 1250, 32, 0, 0, 1, 0, 0, 20, 4, false, false⟩

/-- A background particle displaced from its home, friction 1, mass 1. -/
def particleA : Particle := ⟨0, 0, 10, 0, 0, 0, 10000, 0, false, 1, 0, 0, 0, 1, 1, 11 / 10⟩

/-- A single-particle state with no waves and no dust. -/
def stateA : SimState := ⟨[particleA], [], [], 0, 0⟩

/-- An inactive pointer sample. -/
def mouseA : Mouse := ⟨0, 0, false⟩

/-! ### C1 — the paused flag -/

/-- C1 (amended): when the configuration is paused, a tick leaves the wave
list, the accumulated simulation time, and the wave-spawn timer unchanged. -/
theorem C1_paused_tick_freezes_waves_and_time (ops : MathOps) (width height : ℚ)
    (cfg : Config) (mouse : Mouse) (delta : ℚ) (rand : ℕ → ℚ) (s : SimState) (r : ℕ)
    (hp : cfg.paused = true) :
    (tick ops width height cfg mouse delta rand s r).1.waves = s.waves ∧
    (tick ops width height cfg mouse delta rand s r).1.accumulatedTime = s.accumulatedTime ∧
    (tick ops width height cfg mouse delta rand s r).1.timeSinceLastWave
      = s.timeSinceLastWave := by
  refine ⟨?_, ?_, ?_⟩ <;> simp [tick, hp]

/-- C1 witness: the freeze theorem applied at a concrete paused state. -/
theorem C1_witness :
    cfgPaused.paused = true ∧
    ((tick opsA 100 100 cfgPaused mouseA 16 randA stateA 0).1.waves = stateA.waves ∧
      (tick opsA 100 100 cfgPaused mouseA 16 randA stateA 0).1.accumulatedTime
        = stateA.accumulatedTime ∧
      (tick opsA 100 100 cfgPaused mouseA 16 randA stateA 0).1.timeSinceLastWave
        = stateA.timeSinceLastWave) :=
  ⟨rfl, C1_paused_tick_freezes_waves_and_time opsA 100 100 cfgPaused mouseA 16 randA stateA 0 rfl⟩

section
attribute [local semireducible] Rat.add Rat.mul Rat.sub Rat.inv Rat.div Rat.ofScientific

/-- C1 counterexample: with the paused flag set, a tick still changes a
the position and velocity of a particle (spring, friction and integration are
not gated on the paused flag), refuting the claim that a paused tick
performs no state change at all. -/
theorem C1_counterexample :
    cfgPaused.paused = true ∧
    (tick opsA 100 100 cfgPaused mouseA 16 randA stateA 0).1.particles
      ≠ stateA.particles := by
  exact ⟨rfl, by decide⟩

end

/-! ### C5 — pointer-coordinate independence when inactive -/

/-- The step of one particle does not read the local pointer coordinates when the
pointer is inactive. -/
theorem stepParticle_inactive (ops : MathOps) (cfg : Config) (time : ℚ)
    (fw : Option Wave) (waves : List Wave) (a b : ℚ) (rand : ℕ → ℚ)
    (p : Particle) (r : ℕ) :
    stepParticle ops cfg time fw waves a b false rand p r
      = stepParticle ops cfg time fw waves 0 0 false rand p r := by
  simp only [stepParticle, Bool.false_eq_true, if_false]

/-- The particle loop does not read the local pointer coordinates when the
pointer is inactive. -/
theorem stepParticles_inactive (ops : MathOps) (cfg : Config) (time : ℚ)
    (fw : Option Wave) (waves : List Wave) (a b : ℚ) (rand : ℕ → ℚ)
    (l : List Particle) (r : ℕ) :
    stepParticles ops cfg time fw waves a b false rand l r
      = stepParticles ops cfg time fw waves 0 0 false rand l r := by
  induction l generalizing r with
  | nil => rfl
  | cons p ps ih =>
    simp only [stepParticles]
    rw [stepParticle_inactive ops cfg time fw waves a b rand p r, ih]

/-- The step of one dust particle does not read the local pointer coordinates
when the pointer is inactive. -/
theorem stepAmbient_inactive (ops : MathOps) (cfg : Config) (a b : ℚ)
    (rand : ℕ → ℚ) (d : AmbientParticle) (r : ℕ) :
    stepAmbient ops cfg a b false rand d r = stepAmbient ops cfg 0 0 false rand d r := by
  simp only [stepAmbient, Bool.false_eq_true, if_false]

/-- The dust loop does not read the local pointer coordinates when the
pointer is inactive. -/
theorem stepAmbients_inactive (ops : MathOps) (cfg : Config) (a b : ℚ)
    (rand : ℕ → ℚ) (l : List AmbientParticle) (r : ℕ) :
    stepAmbients ops cfg a b false rand l r = stepAmbients ops cfg 0 0 false rand l r := by
  induction l generalizing r with
  | nil => rfl
  | cons d ds ih =>
    simp only [stepAmbients]
    rw [stepAmbient_inactive ops cfg a b rand d r, ih]

/-- C5: with an inactive pointer sample, the state produced by a tick is
independent of the pointer coordinates — the whole output state (hence
the position and velocity of every particle) and the random cursor coincide for
any two pointer positions. -/
theorem C5_pointer_inactive_independence (ops : MathOps) (width height : ℚ)
    (cfg : Config) (delta : ℚ) (rand : ℕ → ℚ) (s : SimState) (r : ℕ)
    (x1 y1 x2 y2 : ℚ) :
    tick ops width height cfg ⟨x1, y1, false⟩ delta rand s r
      = tick ops width height cfg ⟨x2, y2, false⟩ delta rand s r := by
  simp only [tick]
  rw [stepParticles_inactive, stepAmbients_inactive,
    stepParticles_inactive ops cfg _ _ _ ((x2 - width / 2) / _),
    stepAmbients_inactive ops cfg ((x2 - width / 2) / _)]

/-! ### C9 — ambient-dust minimum -/

/-- The executable rational floor agrees with the mathematical floor. -/
theorem intFloor_eq_ratFloor (q : ℚ) : ⌊q⌋ = q.floor := by
  rw [Rat.floor_def, Rat.floor_def']

/-- The top-up loop adds exactly its fuel argument many dust particles. -/
theorem topUpAmbient_length (width height : ℚ) (rand : ℕ → ℚ) :
    ∀ (k : ℕ) (l : List AmbientParticle) (r : ℕ),
      (topUpAmbient width height rand k l r).1.length = l.length + k := by
  intro k
  induction k with
  | zero => intro l r; simp [topUpAmbient]
  | succ n ih =>
    intro l r
    simp only [topUpAmbient]
    rw [ih]
    simp
    omega

/-- C9: the effective ambient-dust target is max(10, floor(ambientCount)),
and on a non-degenerate canvas the mask build always ends with at least
that many (hence at least 10) ambient particles. -/
theorem C9_ambient_minimum (ops : MathOps) (cfg : Config) (alpha : ℕ → ℕ → ℕ)
    (width height wordLen : ℕ) (rand : ℕ → ℚ) (r : ℕ)
    (hw : width ≠ 0) (hh : height ≠ 0) :
    ambientTarget cfg = max 10 ⌊cfg.ambientCount⌋ ∧
    (10 : ℤ) ≤ ambientTarget cfg ∧
    ambientTarget cfg
      ≤ ((createMask ops cfg alpha width height wordLen rand r).1.ambient.length : ℤ) := by
  refine ⟨by rw [ambientTarget, intFloor_eq_ratFloor], le_max_left _ _, ?_⟩
  simp only [createMask, hw, hh, or_self, if_false, or_false, false_or, if_neg,
    not_false_iff]
  rw [topUpAmbient_length]
  push_cast
  omega

/-- C9 witness: the minimum applied at a concrete 1-by-1 canvas with a
configured ambient count of zero, where exactly 10 dust particles exist. -/
theorem C9_witness :
    (1 : ℕ) ≠ 0 ∧ cfgRun.ambientCount = 0 ∧
    (ambientTarget cfgRun = max 10 ⌊cfgRun.ambientCount⌋ ∧
      (10 : ℤ) ≤ ambientTarget cfgRun ∧
      ambientTarget cfgRun
        ≤ ((createMask opsA cfgRun (fun _ _ => 0) 1 1 8 randA 0).1.ambient.length : ℤ)) :=
  ⟨by decide, rfl,
    C9_ambient_minimum opsA cfgRun (fun _ _ => 0) 1 1 8 randA 0 (by decide) (by decide)⟩

/-! ### C3 — collision radii at spawn -/

/-- Radii invariant of the spawn fold: every mask particle is pushed with
TEXT_RADIUS and every promoted dust particle with BG_RADIUS. -/
theorem spawnFold_radius (ops : MathOps) (alpha : ℕ → ℕ → ℕ) (cX cY wX wY : ℚ)
    (target : ℤ) (rand : ℕ → ℚ) (pts : List (ℕ × ℕ))
    (st : List Particle × List AmbientParticle × ℕ)
    (hp : st.1.all (fun p => p.radius == TEXT_RADIUS) = true)
    (ha : st.2.1.all (fun a => a.radius == BG_RADIUS) = true) :
    ((pts.foldl (spawnStep ops alpha cX cY wX wY target rand) st).1.all
        (fun p => p.radius == TEXT_RADIUS) = true) ∧
    ((pts.foldl (spawnStep ops alpha cX cY wX wY target rand) st).2.1.all
        (fun a => a.radius == BG_RADIUS) = true) := by
  induction pts generalizing st with
  | nil => exact ⟨hp, ha⟩
  | cons q qs ih =>
    refine ih _ ?_ ?_ <;>
      · simp only [spawnStep]
        split_ifs <;>
          simp only [List.all_append, hp, ha, List.all_cons, List.all_nil,
            beq_self_eq_true, Bool.and_self, Bool.true_and, Bool.and_true]

/-- The top-up loop only appends dust particles with BG_RADIUS. -/
theorem topUpAmbient_radius (width height : ℚ) (rand : ℕ → ℚ) :
    ∀ (k : ℕ) (l : List AmbientParticle) (r : ℕ),
      l.all (fun a => a.radius == BG_RADIUS) = true →
      (topUpAmbient width height rand k l r).1.all (fun a => a.radius == BG_RADIUS) = true := by
  intro k
  induction k with
  | zero => intro l r h; exact h
  | succ n ih =>
    intro l r h
    simp only [topUpAmbient]
    exact ih _ _ (by simp_all [List.all_append, topUpParticle])

/-- C3 (amended): every mask-derived particle — text and background alike —
is created with collision radius TEXT_RADIUS = 1.1; only the ambient dust
pool is created with BG_RADIUS = 1.0. -/
theorem C3_radius_assignment (ops : MathOps) (cfg : Config) (alpha : ℕ → ℕ → ℕ)
    (width height wordLen : ℕ) (rand : ℕ → ℚ) (r : ℕ) :
    ((createMask ops cfg alpha width height wordLen rand r).1.particles.all
        (fun p => p.radius == TEXT_RADIUS) = true) ∧
    ((createMask ops cfg alpha width height wordLen rand r).1.ambient.all
        (fun a => a.radius == BG_RADIUS) = true) := by
  by_cases h : width = 0 ∨ height = 0
  · simp [createMask, h]
  · simp only [createMask, if_neg h]
    constructor
    · exact (spawnFold_radius ops alpha _ _ _ _ _ _ _ ([], [], r) rfl rfl).1
    · exact topUpAmbient_radius _ _ _ _ _ _
        (spawnFold_radius ops alpha _ _ _ _ _ _ _ ([], [], r) rfl rfl).2

section
attribute [local semireducible] Rat.add Rat.mul Rat.sub Rat.inv Rat.div Rat.ofScientific

/-- C3 counterexample: at a 1-by-1 canvas with an all-transparent bitmap the
single spawned particle is classified as background yet is created with
radius 1.1 (TEXT_RADIUS), not 1.0 (BG_RADIUS), refuting the claim that
background particles get radius 1.0. -/
theorem C3_counterexample :
    (((createMask opsA cfgRun (fun _ _ => 0) 1 1 8 randA 0).1.particles.getD 0
        default).isText = false) ∧
    ¬ ((createMask opsA cfgRun (fun _ _ => 0) 1 1 8 randA 0).1.particles.getD 0
        default).radius = BG_RADIUS ∧
    ((createMask opsA cfgRun (fun _ _ => 0) 1 1 8 randA 0).1.particles.getD 0
        default).radius = TEXT_RADIUS := by
  refine ⟨by decide, by decide, by decide⟩

end

/-! ### C4 — wave growth and removal -/

/-- On a descending-radius wave list, shifting dead waves off the front
removes exactly the waves whose radius exceeds the threshold. -/
theorem dropWhile_dead_eq_filter (m : ℚ) :
    ∀ l : List Wave, l.Pairwise (fun a b => b.radius ≤ a.radius) →
      l.dropWhile (fun w => decide (m < w.radius))
        = l.filter (fun w => ! decide (m < w.radius)) := by
  intro l
  induction l with
  | nil => intro _; rfl
  | cons w ws ih =>
    intro hsort
    rw [List.pairwise_cons] at hsort
    rw [List.dropWhile_cons, List.filter_cons]
    by_cases hw : m < w.radius
    · simp [hw]
      exact ih hsort.2
    · have hall : ∀ v ∈ ws, (! decide (m < v.radius)) = true := by
        intro v hv
        have hvm : v.radius ≤ m := le_trans (hsort.1 v hv) (not_lt.mp hw)
        simp [not_lt.mpr hvm]
      simp [hw, List.filter_eq_self.mpr hall]

/-- C4: on an unpaused tick with positive delta and positive wave speed, on
a descending wave list the radius of every live wave grows by exactly
delta * waveSpeed (a strict increase), the shift loop removes exactly the
grown waves whose radius exceeds hypot(width, height) + 200 (the surviving
list is the filter of the grown list, possibly with one freshly spawned
radius-0 wave appended), and the wave list of the tick is this wave-phase
output. -/
theorem C4_wave_growth_and_removal (ops : MathOps) (width height : ℚ) (cfg : Config)
    (mouse : Mouse) (delta : ℚ) (rand : ℕ → ℚ) (s : SimState) (r : ℕ)
    (hp : cfg.paused = false) (hd : 0 < delta) (hs : 0 < cfg.waveSpeed)
    (hsort : s.waves.Pairwise (fun a b => b.radius ≤ a.radius)) :
    List.Forall₂
      (fun w w2 => w2.radius = w.radius + delta * cfg.waveSpeed ∧ w.radius < w2.radius)
      s.waves (s.waves.map (fun w => Wave.mk (w.radius + delta * cfg.waveSpeed))) ∧
    ((waveUpdate ops cfg width height delta s.waves s.timeSinceLastWave).1
        = (s.waves.map (fun w => Wave.mk (w.radius + delta * cfg.waveSpeed))).filter
            (fun w => ! decide (ops.hypot width height + 200 < w.radius)) ∨
      (waveUpdate ops cfg width height delta s.waves s.timeSinceLastWave).1
        = ((s.waves.map (fun w => Wave.mk (w.radius + delta * cfg.waveSpeed))).filter
            (fun w => ! decide (ops.hypot width height + 200 < w.radius))) ++ [Wave.mk 0]) ∧
    (tick ops width height cfg mouse delta rand s r).1.waves
      = (waveUpdate ops cfg width height delta s.waves s.timeSinceLastWave).1 := by
  refine ⟨?_, ?_, ?_⟩
  · rw [List.forall₂_map_right_iff, List.forall₂_same]
    intro w _
    exact ⟨rfl, lt_add_of_pos_right _ (mul_pos hd hs)⟩
  · have hgrown : (s.waves.map (fun w => Wave.mk (w.radius + delta * cfg.waveSpeed))).Pairwise
        (fun a b => b.radius ≤ a.radius) := by
      refine List.Pairwise.map _ (fun a b h => ?_) hsort
      simpa using add_le_add_right h (delta * cfg.waveSpeed)
    simp only [waveUpdate]
    rw [dropWhile_dead_eq_filter _ _ hgrown]
    split_ifs
    · exact Or.inr rfl
    · exact Or.inr rfl
    · exact Or.inl rfl
  · simp [tick, hp]

section
attribute [local semireducible] Rat.add Rat.mul Rat.sub Rat.inv Rat.div Rat.ofScientific

/-- A concrete descending wave list: the front wave is beyond the removal
threshold for a 100-by-100 canvas, the second is not. -/
def stateB : SimState := ⟨[], [], [Wave.mk 500, Wave.mk 5], 0, 0⟩

/-- C4 witness: the wave-phase theorem applied at a concrete unpaused state
with two descending waves. -/
theorem C4_witness :
    cfgRun.paused = false ∧ (0 : ℚ) < 16 ∧ (0 : ℚ) < cfgRun.waveSpeed ∧
    stateB.waves.Pairwise (fun a b => b.radius ≤ a.radius) ∧
    (List.Forall₂
      (fun w w2 => w2.radius = w.radius + 16 * cfgRun.waveSpeed ∧ w.radius < w2.radius)
      stateB.waves (stateB.waves.map (fun w => Wave.mk (w.radius + 16 * cfgRun.waveSpeed))) ∧
    ((waveUpdate opsA cfgRun 100 100 16 stateB.waves stateB.timeSinceLastWave).1
        = (stateB.waves.map (fun w => Wave.mk (w.radius + 16 * cfgRun.waveSpeed))).filter
            (fun w => ! decide (opsA.hypot 100 100 + 200 < w.radius)) ∨
      (waveUpdate opsA cfgRun 100 100 16 stateB.waves stateB.timeSinceLastWave).1
        = ((stateB.waves.map (fun w => Wave.mk (w.radius + 16 * cfgRun.waveSpeed))).filter
            (fun w => ! decide (opsA.hypot 100 100 + 200 < w.radius))) ++ [Wave.mk 0]) ∧
    (tick opsA 100 100 cfgRun mouseA 16 randA stateB 0).1.waves
      = (waveUpdate opsA cfgRun 100 100 16 stateB.waves stateB.timeSinceLastWave).1) :=
  ⟨rfl, by decide, by decide, by decide,
    C4_wave_growth_and_removal opsA 100 100 cfgRun mouseA 16 randA stateB 0 rfl
      (by decide) (by decide) (by decide)⟩

end

/-! ### C6 — spring relaxation -/

/-- Squared distance from the current position of a particle to its
home-plus-jitter target. -/
def particleDistSqToTarget (p : Particle) : ℚ :=
  (p.x - (p.baseX + p.jitterX)) * (p.x - (p.baseX + p.jitterX)) +
    (p.y - (p.baseY + p.jitterY)) * (p.y - (p.baseY + p.jitterY))

/-- The activation tracker is the identity when intro is not skipped and no
wave is live. -/
theorem revealUpdate_false_none (it : Bool) (act d : ℚ) :
    revealUpdate false none it act d = act := by
  cases it <;> rfl

/-- C6 (amended): with no live waves, the pointer inactive, the bounce and
wave kicks therefore absent, intro not skipped, friction in (0,1], positive
mass and positive return strength, the per-particle tick update fixes a
particle exactly when it sits at its home-plus-jitter target with zero
velocity (the target state is the unique rest point; monotone distance
decrease does not hold, see the counterexample). -/
theorem C6_fixed_point (ops : MathOps) (cfg : Config) (time : ℚ) (a b : ℚ)
    (rand : ℕ → ℚ) (p : Particle) (r : ℕ)
    (hsi : cfg.skipIntro = false) (hf0 : 0 < p.friction) (hf1 : p.friction ≤ 1)
    (hm : 0 < p.mass) (hr : 0 < cfg.returnStrength) :
    (stepParticle ops cfg time none [] a b false rand p r).1 = p ↔
      (p.x = p.baseX + p.jitterX ∧ p.y = p.baseY + p.jitterY ∧
        p.vx = 0 ∧ p.vy = 0) := by
  obtain ⟨bX, bY, px, py, pvx, pvy, pd, pan, pit, pact, pjx, pjy, pph, pfr, pm, prad⟩ := p
  simp only at hf0 hf1 hm
  have hfne : pfr ≠ 0 := ne_of_gt hf0
  have hsne : cfg.returnStrength / pm ≠ 0 := div_ne_zero (ne_of_gt hr) (ne_of_gt hm)
  simp only [stepParticle, List.foldl_nil, hsi, revealUpdate_false_none,
    Bool.false_eq_true, if_false, Particle.mk.injEq, and_true, true_and]
  constructor
  · rintro ⟨hX, hY, hVX, hVY⟩
    have hEx : (pvx + 0 + (bX + pjx - px) * (cfg.returnStrength / pm)) * pfr = 0 := by
      linarith [hX]
    have hEy : (pvy + 0 + (bY + pjy - py) * (cfg.returnStrength / pm)) * pfr = 0 := by
      linarith [hY]
    have hvx0 : pvx = 0 := by rw [← hVX]; exact hEx
    have hvy0 : pvy = 0 := by rw [← hVY]; exact hEy
    rw [hvx0] at hEx
    rw [hvy0] at hEy
    have hDx : bX + pjx - px = 0 := by
      rcases mul_eq_zero.mp hEx with h | h
      · rcases mul_eq_zero.mp (by linarith [h] : (bX + pjx - px) * (cfg.returnStrength / pm) = 0)
          with h2 | h2
        · exact h2
        · exact absurd h2 hsne
      · exact absurd h hfne
    have hDy : bY + pjy - py = 0 := by
      rcases mul_eq_zero.mp hEy with h | h
      · rcases mul_eq_zero.mp (by linarith [h] : (bY + pjy - py) * (cfg.returnStrength / pm) = 0)
          with h2 | h2
        · exact h2
        · exact absurd h2 hsne
      · exact absurd h hfne
    exact ⟨by linarith [hDx], by linarith [hDy], hvx0, hvy0⟩
  · rintro ⟨hx, hy, hvx, hvy⟩
    subst hvx
    subst hvy
    rw [hx, hy]
    ring_nf
    simp

section
attribute [local semireducible] Rat.add Rat.mul Rat.sub Rat.inv Rat.div Rat.ofScientific

/-- C6 counterexample: under exactly the hypotheses of the claim (wave kick 0,
bounce probability 0, pointer inactive, return strength 1, mass 1, friction
1) the particle overshoots: its squared distance to home-plus-jitter is 0
after one tick and 100 after two, so the distance to the target does not
decrease monotonically and the position does not converge. -/
theorem C6_counterexample :
    cfgRun.radialKick = 0 ∧ cfgRun.bounceProb = 0 ∧ mouseA.active = false ∧
    (0 : ℚ) < particleA.friction ∧ particleA.friction ≤ 1 ∧
    (0 : ℚ) < particleA.mass ∧ (0 : ℚ) < cfgRun.returnStrength ∧
    particleDistSqToTarget
        ((tick opsA 100 100 cfgRun mouseA 16 randA stateA 0).1.particles.getD 0 default)
      < particleDistSqToTarget
        ((tick opsA 100 100 cfgRun mouseA 16 randA
            (tick opsA 100 100 cfgRun mouseA 16 randA stateA 0).1
            (tick opsA 100 100 cfgRun mouseA 16 randA stateA 0).2).1.particles.getD 0
          default) := by
  refine ⟨rfl, rfl, rfl, by decide, by decide, by decide, by decide, by decide⟩

/-- A particle resting at its home-plus-jitter target with zero velocity. -/
def particleB : Particle := ⟨0, 0, 0, 0, 0, 0, 10000, 0, false, 1, 0, 0, 0, 1, 1, 11 / 10⟩

/-- C6 witness: the fixed-point theorem applied at a concrete resting
particle. -/
theorem C6_witness :
    cfgRun.skipIntro = false ∧ (0 : ℚ) < particleB.friction ∧ particleB.friction ≤ 1 ∧
    (0 : ℚ) < particleB.mass ∧ (0 : ℚ) < cfgRun.returnStrength ∧
    (stepParticle opsA cfgRun 0 none [] 0 0 false randA particleB 0).1 = particleB :=
  ⟨rfl, by decide, by decide, by decide, by decide,
    (C6_fixed_point opsA cfgRun 0 0 0 randA particleB 0 rfl (by decide) (by decide)
        (by decide) (by decide)).mpr ⟨by decide, by decide, rfl, rfl⟩⟩

end

/-! ### C7 — collision velocity exchange -/

theorem particlePhys_withPhys (p : Particle) (q : Phys) : (p.withPhys q).phys = q := rfl

theorem ambPhys_withPhys (a : AmbientParticle) (q : Phys) :
    (a.withPhys q).phys = q := rfl

theorem length1_setBodyPhys (st : BodyState) (i : ℕ) (q : Phys) :
    (setBodyPhys st i q).1.length = st.1.length := by
  unfold setBodyPhys
  split
  · simp
  · split <;> rfl

theorem length2_setBodyPhys (st : BodyState) (i : ℕ) (q : Phys) :
    (setBodyPhys st i q).2.length = st.2.length := by
  unfold setBodyPhys
  split
  · rfl
  · split
    · simp
    · rfl

theorem bodyCount_setBodyPhys (st : BodyState) (i : ℕ) (q : Phys) :
    bodyCount (setBodyPhys st i q) = bodyCount st := by
  unfold bodyCount
  rw [length1_setBodyPhys, length2_setBodyPhys]

theorem bodyPhys_setBodyPhys_self (st : BodyState) (i : ℕ) (q : Phys)
    (hi : i < bodyCount st) : bodyPhys (setBodyPhys st i q) i = q := by
  unfold bodyCount at hi
  unfold bodyPhys setBodyPhys
  rcases Nat.lt_or_ge i st.1.length with h1 | h1
  · rw [dif_pos h1, dif_pos (by simpa using h1)]
    rw [List.get_eq_getElem, List.getElem_set_self]
    rfl
  · rw [dif_neg (not_lt.mpr h1)]
    have h2 : i - st.1.length < st.2.length := by omega
    rw [dif_pos h2, dif_neg (not_lt.mpr h1), dif_pos (by simpa using h2)]
    rw [List.get_eq_getElem, List.getElem_set_self]
    rfl

theorem bodyPhys_setBodyPhys_ne (st : BodyState) (i j : ℕ) (q : Phys) (hij : i ≠ j) :
    bodyPhys (setBodyPhys st j q) i = bodyPhys st i := by
  unfold bodyPhys setBodyPhys
  rcases Nat.lt_or_ge j st.1.length with hj1 | hj1
  · rw [dif_pos hj1]
    rcases Nat.lt_or_ge i st.1.length with hi1 | hi1
    · rw [dif_pos (by simpa using hi1), dif_pos hi1]
      congr 1
      simp only [List.get_eq_getElem]
      rw [List.getElem_set_ne (Ne.symm hij)]
    · rw [dif_neg (by simpa using not_lt.mpr hi1), dif_neg (not_lt.mpr hi1)]
      simp
  · rw [dif_neg (not_lt.mpr hj1)]
    rcases Nat.lt_or_ge (j - st.1.length) st.2.length with hj2 | hj2
    · rw [dif_pos hj2]
      rcases Nat.lt_or_ge i st.1.length with hi1 | hi1
      · rw [dif_pos hi1, dif_pos hi1]
      · have hne : i - st.1.length ≠ j - st.1.length := by omega
        rw [dif_neg (not_lt.mpr hi1), dif_neg (not_lt.mpr hi1)]
        rcases Nat.lt_or_ge (i - st.1.length) st.2.length with hi2 | hi2
        · rw [dif_pos (by simpa using hi2), dif_pos hi2]
          congr 1
          simp only [List.get_eq_getElem, length1_setBodyPhys]
          rw [List.getElem_set_ne (Ne.symm hne)]
        · rw [dif_neg (by simpa using not_lt.mpr hi2), dif_neg (not_lt.mpr hi2)]
    · rw [dif_neg (not_lt.mpr hj2)]

theorem bodyMass_setBodyPhys (st : BodyState) (i j : ℕ) (q : Phys) :
    bodyMass (setBodyPhys st j q) i = bodyMass st i := by
  unfold bodyMass setBodyPhys
  rcases Nat.lt_or_ge j st.1.length with hj1 | hj1
  · rw [dif_pos hj1]
    rcases Nat.lt_or_ge i st.1.length with hi1 | hi1
    · rw [dif_pos (by simpa using hi1), dif_pos hi1]
      simp only [List.get_eq_getElem]
      rw [List.getElem_set]
      split
      · rename_i h
        subst h
        rfl
      · rfl
    · rw [dif_neg (by simpa using not_lt.mpr hi1), dif_neg (not_lt.mpr hi1)]
      simp
  · rw [dif_neg (not_lt.mpr hj1)]
    rcases Nat.lt_or_ge (j - st.1.length) st.2.length with hj2 | hj2
    · rw [dif_pos hj2]
      rcases Nat.lt_or_ge i st.1.length with hi1 | hi1
      · rw [dif_pos hi1, dif_pos hi1]
      · rw [dif_neg (not_lt.mpr hi1), dif_neg (not_lt.mpr hi1)]
        rcases Nat.lt_or_ge (i - st.1.length) st.2.length with hi2 | hi2
        · rw [dif_pos (by simpa using hi2), dif_pos hi2]
          simp only [List.get_eq_getElem]
          rw [List.getElem_set]
          split
          · rename_i h
            simp only [h]
            rfl
          · rfl
        · rw [dif_neg (by simpa using not_lt.mpr hi2), dif_neg (not_lt.mpr hi2)]
    · rw [dif_neg (not_lt.mpr hj2)]

theorem bodyRadius_setBodyPhys (st : BodyState) (i j : ℕ) (q : Phys) :
    bodyRadius (setBodyPhys st j q) i = bodyRadius st i := by
  unfold bodyRadius setBodyPhys
  rcases Nat.lt_or_ge j st.1.length with hj1 | hj1
  · rw [dif_pos hj1]
    rcases Nat.lt_or_ge i st.1.length with hi1 | hi1
    · rw [dif_pos (by simpa using hi1), dif_pos hi1]
      simp only [List.get_eq_getElem]
      rw [List.getElem_set]
      split
      · rename_i h
        subst h
        rfl
      · rfl
    · rw [dif_neg (by simpa using not_lt.mpr hi1), dif_neg (not_lt.mpr hi1)]
      simp
  · rw [dif_neg (not_lt.mpr hj1)]
    rcases Nat.lt_or_ge (j - st.1.length) st.2.length with hj2 | hj2
    · rw [dif_pos hj2]
      rcases Nat.lt_or_ge i st.1.length with hi1 | hi1
      · rw [dif_pos hi1, dif_pos hi1]
      · rw [dif_neg (not_lt.mpr hi1), dif_neg (not_lt.mpr hi1)]
        rcases Nat.lt_or_ge (i - st.1.length) st.2.length with hi2 | hi2
        · rw [dif_pos (by simpa using hi2), dif_pos hi2]
          simp only [List.get_eq_getElem]
          rw [List.getElem_set]
          split
          · rename_i h
            simp only [h]
            rfl
          · rfl
        · rw [dif_neg (by simpa using not_lt.mpr hi2), dif_neg (not_lt.mpr hi2)]
    · rw [dif_neg (not_lt.mpr hj2)]

/-- Displacement between the two bodies of a candidate pair. -/
def pairDx (st : BodyState) (i j : ℕ) : ℚ := (bodyPhys st j).x - (bodyPhys st i).x

def pairDy (st : BodyState) (i j : ℕ) : ℚ := (bodyPhys st j).y - (bodyPhys st i).y

/-- Squared distance between the two bodies of a candidate pair. -/
def pairDistSq (st : BodyState) (i j : ℕ) : ℚ :=
  pairDx st i j * pairDx st i j + pairDy st i j * pairDy st i j

/-- The collision normal (x component) as the code computes it. -/
def pairNx (ops : MathOps) (st : BodyState) (i j : ℕ) : ℚ :=
  pairDx st i j / ops.sqrt (pairDistSq st i j)

/-- The collision normal (y component) as the code computes it. -/
def pairNy (ops : MathOps) (st : BodyState) (i j : ℕ) : ℚ :=
  pairDy st i j / ops.sqrt (pairDistSq st i j)

/-- Normal velocity component of body k along the (i, j) collision normal. -/
def normalVel (ops : MathOps) (st : BodyState) (i j k : ℕ) : ℚ :=
  (bodyPhys st k).vx * pairNx ops st i j + (bodyPhys st k).vy * pairNy ops st i j

/-- The 1-D elastic-collision formula of the specification: final normal
velocity of a body of mass m1 and incoming normal velocity v1 against a
body of mass m2 and normal velocity v2. -/
def elasticFinal (m1 m2 v1 v2 : ℚ) : ℚ := (v1 * (m1 - m2) + 2 * m2 * v2) / (m1 + m2)

/-- C7: for a colliding pair, the velocity-exchange step is skipped exactly
when the bodies are separating along the normal (velocities unchanged), and
otherwise the velocity of each body changes along the normal by the 1-D
elastic-collision delta scaled by the damping factor 0.85. -/
theorem C7_collision_velocity_exchange (ops : MathOps) (st : BodyState) (i j : ℕ)
    (hi : i < bodyCount st) (hj : j < bodyCount st) (hij : i ≠ j)
    (hcol : pairDistSq st i j < (bodyRadius st i + bodyRadius st j) *
        (bodyRadius st i + bodyRadius st j) ∧ 1 / 1000 < pairDistSq st i j) :
    ((normalVel ops st i j i < normalVel ops st i j j →
      ((bodyPhys (resolvePair ops st i j) i).vx = (bodyPhys st i).vx ∧
       (bodyPhys (resolvePair ops st i j) i).vy = (bodyPhys st i).vy ∧
       (bodyPhys (resolvePair ops st i j) j).vx = (bodyPhys st j).vx ∧
       (bodyPhys (resolvePair ops st i j) j).vy = (bodyPhys st j).vy)) ∧
     (¬ normalVel ops st i j i < normalVel ops st i j j →
      ((bodyPhys (resolvePair ops st i j) i).vx = (bodyPhys st i).vx +
          (elasticFinal (bodyMass st i) (bodyMass st j) (normalVel ops st i j i)
              (normalVel ops st i j j) - normalVel ops st i j i) *
            pairNx ops st i j * COLLISION_DAMPING ∧
       (bodyPhys (resolvePair ops st i j) i).vy = (bodyPhys st i).vy +
          (elasticFinal (bodyMass st i) (bodyMass st j) (normalVel ops st i j i)
              (normalVel ops st i j j) - normalVel ops st i j i) *
            pairNy ops st i j * COLLISION_DAMPING ∧
       (bodyPhys (resolvePair ops st i j) j).vx = (bodyPhys st j).vx +
          (elasticFinal (bodyMass st j) (bodyMass st i) (normalVel ops st i j j)
              (normalVel ops st i j i) - normalVel ops st i j j) *
            pairNx ops st i j * COLLISION_DAMPING ∧
       (bodyPhys (resolvePair ops st i j) j).vy = (bodyPhys st j).vy +
          (elasticFinal (bodyMass st j) (bodyMass st i) (normalVel ops st i j j)
              (normalVel ops st i j i) - normalVel ops st i j j) *
            pairNy ops st i j * COLLISION_DAMPING))) := by
  simp only [pairDistSq, pairDx, pairDy] at hcol
  constructor
  · intro hlt
    simp only [normalVel, pairNx, pairNy, pairDistSq, pairDx, pairDy] at hlt
    simp only [resolvePair, if_pos hcol, if_pos hlt]
    refine ⟨?_, ?_, ?_, ?_⟩
    · rw [bodyPhys_setBodyPhys_ne _ _ _ _ hij, bodyPhys_setBodyPhys_self _ _ _ hi]
    · rw [bodyPhys_setBodyPhys_ne _ _ _ _ hij, bodyPhys_setBodyPhys_self _ _ _ hi]
    · rw [bodyPhys_setBodyPhys_self _ _ _ (by rw [bodyCount_setBodyPhys]; exact hj)]
    · rw [bodyPhys_setBodyPhys_self _ _ _ (by rw [bodyCount_setBodyPhys]; exact hj)]
  · intro hnlt
    simp only [normalVel, pairNx, pairNy, pairDistSq, pairDx, pairDy] at hnlt
    simp only [resolvePair, if_pos hcol, if_neg hnlt]
    refine ⟨?_, ?_, ?_, ?_⟩
    · rw [bodyPhys_setBodyPhys_ne _ _ _ _ hij, bodyPhys_setBodyPhys_self _ _ _ hi]
      simp only [normalVel, pairNx, pairNy, pairDistSq, pairDx, pairDy, elasticFinal]
    · rw [bodyPhys_setBodyPhys_ne _ _ _ _ hij, bodyPhys_setBodyPhys_self _ _ _ hi]
      simp only [normalVel, pairNx, pairNy, pairDistSq, pairDx, pairDy, elasticFinal]
    · rw [bodyPhys_setBodyPhys_self _ _ _ (by rw [bodyCount_setBodyPhys]; exact hj)]
      simp only [normalVel, pairNx, pairNy, pairDistSq, pairDx, pairDy, elasticFinal]
      ring_nf
    · rw [bodyPhys_setBodyPhys_self _ _ _ (by rw [bodyCount_setBodyPhys]; exact hj)]
      simp only [normalVel, pairNx, pairNy, pairDistSq, pairDx, pairDy, elasticFinal]
      ring_nf

section
attribute [local semireducible] Rat.add Rat.mul Rat.sub Rat.inv Rat.div Rat.ofScientific

/-- Two overlapping unit-mass bodies approaching head-on along the x axis. -/
def particleC1 : Particle := ⟨0, 0, 0, 0, 1, 0, 10000, 0, true, 1, 0, 0, 0, 1, 1, 11 / 10⟩

def particleC2 : Particle := ⟨0, 0, 1, 0, -1, 0, 10000, 0, true, 1, 0, 0, 0, 1, 1, 11 / 10⟩

def stateC : BodyState := ([particleC1, particleC2], [])

/-- C7 witness: the velocity-exchange theorem applied to a concrete
approaching, overlapping pair of bodies. -/
theorem C7_witness :
    ((0 : ℕ) < bodyCount stateC ∧ (1 : ℕ) < bodyCount stateC ∧ (0 : ℕ) ≠ 1 ∧
      (pairDistSq stateC 0 1 < (bodyRadius stateC 0 + bodyRadius stateC 1) *
          (bodyRadius stateC 0 + bodyRadius stateC 1) ∧
        1 / 1000 < pairDistSq stateC 0 1) ∧
      ¬ normalVel opsA stateC 0 1 0 < normalVel opsA stateC 0 1 1) ∧
    ((bodyPhys (resolvePair opsA stateC 0 1) 0).vx = (bodyPhys stateC 0).vx +
        (elasticFinal (bodyMass stateC 0) (bodyMass stateC 1) (normalVel opsA stateC 0 1 0)
            (normalVel opsA stateC 0 1 1) - normalVel opsA stateC 0 1 0) *
          pairNx opsA stateC 0 1 * COLLISION_DAMPING ∧
     (bodyPhys (resolvePair opsA stateC 0 1) 0).vy = (bodyPhys stateC 0).vy +
        (elasticFinal (bodyMass stateC 0) (bodyMass stateC 1) (normalVel opsA stateC 0 1 0)
            (normalVel opsA stateC 0 1 1) - normalVel opsA stateC 0 1 0) *
          pairNy opsA stateC 0 1 * COLLISION_DAMPING ∧
     (bodyPhys (resolvePair opsA stateC 0 1) 1).vx = (bodyPhys stateC 1).vx +
        (elasticFinal (bodyMass stateC 1) (bodyMass stateC 0) (normalVel opsA stateC 0 1 1)
            (normalVel opsA stateC 0 1 0) - normalVel opsA stateC 0 1 1) *
          pairNx opsA stateC 0 1 * COLLISION_DAMPING ∧
     (bodyPhys (resolvePair opsA stateC 0 1) 1).vy = (bodyPhys stateC 1).vy +
        (elasticFinal (bodyMass stateC 1) (bodyMass stateC 0) (normalVel opsA stateC 0 1 1)
            (normalVel opsA stateC 0 1 0) - normalVel opsA stateC 0 1 1) *
          pairNy opsA stateC 0 1 * COLLISION_DAMPING) :=
  ⟨⟨by decide, by decide, by decide, ⟨by decide, by decide⟩, by decide⟩,
    (C7_collision_velocity_exchange opsA stateC 0 1 (by decide) (by decide) (by decide)
        ⟨by decide, by decide⟩).2 (by decide)⟩

end

/-! ### Core-field preservation through the collision pass (C2, C8) -/

/-- Equality of all particle fields except the four mutable physics
fields. -/
def Particle.coreEq (p q : Particle) : Prop :=
  p.baseX = q.baseX ∧ p.baseY = q.baseY ∧ p.dist = q.dist ∧ p.angle = q.angle ∧
  p.isText = q.isText ∧ p.activation = q.activation ∧ p.jitterX = q.jitterX ∧
  p.jitterY = q.jitterY ∧ p.phase = q.phase ∧ p.friction = q.friction ∧
  p.mass = q.mass ∧ p.radius = q.radius

theorem particleCoreEq_refl (p : Particle) : p.coreEq p :=
  ⟨rfl, rfl, rfl, rfl, rfl, rfl, rfl, rfl, rfl, rfl, rfl, rfl⟩

theorem particleCoreEq_trans {p q s : Particle} (h1 : p.coreEq q) (h2 : q.coreEq s) :
    p.coreEq s := by
  obtain ⟨a1, a2, a3, a4, a5, a6, a7, a8, a9, a10, a11, a12⟩ := h1
  obtain ⟨b1, b2, b3, b4, b5, b6, b7, b8, b9, b10, b11, b12⟩ := h2
  exact ⟨a1.trans b1, a2.trans b2, a3.trans b3, a4.trans b4, a5.trans b5, a6.trans b6,
    a7.trans b7, a8.trans b8, a9.trans b9, a10.trans b10, a11.trans b11, a12.trans b12⟩

theorem particleCoreEq_withPhys (p : Particle) (q : Phys) : p.coreEq (p.withPhys q) :=
  ⟨rfl, rfl, rfl, rfl, rfl, rfl, rfl, rfl, rfl, rfl, rfl, rfl⟩

/-- Equality of all ambient fields except the four mutable physics
fields. -/
def AmbientParticle.coreEq (p q : AmbientParticle) : Prop :=
  p.baseX = q.baseX ∧ p.baseY = q.baseY ∧ p.friction = q.friction ∧
  p.mass = q.mass ∧ p.radius = q.radius

theorem ambCoreEq_refl (p : AmbientParticle) : p.coreEq p :=
  ⟨rfl, rfl, rfl, rfl, rfl⟩

theorem ambCoreEq_trans {p q s : AmbientParticle}
    (h1 : p.coreEq q) (h2 : q.coreEq s) : p.coreEq s := by
  obtain ⟨a1, a2, a3, a4, a5⟩ := h1
  obtain ⟨b1, b2, b3, b4, b5⟩ := h2
  exact ⟨a1.trans b1, a2.trans b2, a3.trans b3, a4.trans b4, a5.trans b5⟩

theorem ambCoreEq_withPhys (p : AmbientParticle) (q : Phys) :
    p.coreEq (p.withPhys q) := ⟨rfl, rfl, rfl, rfl, rfl⟩

/-- The collision pass relates states with equal lengths and pointwise
equal core fields. -/
def CoreEq (st st2 : BodyState) : Prop :=
  st.1.length = st2.1.length ∧ st.2.length = st2.2.length ∧
  (∀ k : ℕ, (st.1.getD k default).coreEq (st2.1.getD k default)) ∧
  (∀ k : ℕ, (st.2.getD k default).coreEq (st2.2.getD k default))

theorem coreEqState_refl (st : BodyState) : CoreEq st st :=
  ⟨rfl, rfl, fun _ => particleCoreEq_refl _, fun _ => ambCoreEq_refl _⟩

theorem coreEqState_trans {st1 st2 st3 : BodyState}
    (h1 : CoreEq st1 st2) (h2 : CoreEq st2 st3) : CoreEq st1 st3 :=
  ⟨h1.1.trans h2.1, h1.2.1.trans h2.2.1,
    fun k => particleCoreEq_trans (h1.2.2.1 k) (h2.2.2.1 k),
    fun k => ambCoreEq_trans (h1.2.2.2 k) (h2.2.2.2 k)⟩

theorem getD_set_self_of_lt {α : Type _} (l : List α) (i : ℕ) (a d : α)
    (h : i < l.length) : (l.set i a).getD i d = a := by
  induction l generalizing i with
  | nil => simp at h
  | cons b bs ih =>
    cases i with
    | zero => rfl
    | succ n => exact ih n (by simpa using h)

theorem getD_set_ne {α : Type _} (l : List α) (i k : ℕ) (a d : α) (h : i ≠ k) :
    (l.set i a).getD k d = l.getD k d := by
  induction l generalizing i k with
  | nil => rfl
  | cons b bs ih =>
    cases i with
    | zero =>
      cases k with
      | zero => exact absurd rfl h
      | succ n => rfl
    | succ m =>
      cases k with
      | zero => rfl
      | succ n => exact ih m n (fun hh => h (by rw [hh]))

theorem coreEqState_setBodyPhys (st : BodyState) (i : ℕ) (q : Phys) :
    CoreEq st (setBodyPhys st i q) := by
  unfold setBodyPhys
  split
  · rename_i h
    refine ⟨(List.length_set _ _ _).symm, rfl, ?_, fun k => ambCoreEq_refl _⟩
    intro k
    by_cases hk : i = k
    · subst hk
      rw [getD_set_self_of_lt _ _ _ _ h]
      have hg : st.1.get ⟨i, h⟩ = st.1.getD i default := by
        rw [List.getD_eq_getElem _ _ h, List.get_eq_getElem]
      rw [hg]
      exact particleCoreEq_withPhys _ _
    · rw [getD_set_ne _ _ _ _ _ hk]
      exact particleCoreEq_refl _
  · split
    · rename_i h h2
      refine ⟨rfl, (List.length_set _ _ _).symm, fun k => particleCoreEq_refl _, ?_⟩
      intro k
      by_cases hk : i - st.1.length = k
      · subst hk
        rw [getD_set_self_of_lt _ _ _ _ h2]
        have hg : st.2.get ⟨i - st.1.length, h2⟩ = st.2.getD (i - st.1.length) default := by
          rw [List.getD_eq_getElem _ _ h2, List.get_eq_getElem]
        rw [hg]
        exact ambCoreEq_withPhys _ _
      · rw [getD_set_ne _ _ _ _ _ hk]
        exact ambCoreEq_refl _
    · exact coreEqState_refl st

theorem coreEqState_resolvePair (ops : MathOps) (st : BodyState) (i j : ℕ) :
    CoreEq st (resolvePair ops st i j) := by
  simp only [resolvePair]
  split
  · split
    · exact coreEqState_trans (coreEqState_setBodyPhys st i _) (coreEqState_setBodyPhys _ j _)
    · exact coreEqState_trans (coreEqState_setBodyPhys st i _) (coreEqState_setBodyPhys _ j _)
  · exact coreEqState_refl st

theorem coreEqState_foldl {β : Type _} (f : BodyState → β → BodyState)
    (hf : ∀ st b, CoreEq st (f st b)) :
    ∀ (l : List β) (st : BodyState), CoreEq st (l.foldl f st)
  | [], st => coreEqState_refl st
  | b :: bs, st => coreEqState_trans (hf st b) (coreEqState_foldl f hf bs (f st b))

theorem coreEqState_collisionPhase (ops : MathOps) (st : BodyState) :
    CoreEq st (collisionPhase ops st) := by
  unfold collisionPhase
  refine coreEqState_foldl _ (fun st2 i => ?_) _ _
  refine coreEqState_foldl _ (fun st3 ox => ?_) _ _
  refine coreEqState_foldl _ (fun st4 oy => ?_) _ _
  refine coreEqState_foldl _ (fun st5 j => ?_) _ _
  split
  · exact coreEqState_refl _
  · exact coreEqState_resolvePair ops st5 i j

/-! ### Pointwise shape of the particle loop -/

theorem stepParticles_length (ops : MathOps) (cfg : Config) (time : ℚ)
    (fw : Option Wave) (waves : List Wave) (a b : ℚ) (act : Bool) (rand : ℕ → ℚ) :
    ∀ (l : List Particle) (r : ℕ),
      (stepParticles ops cfg time fw waves a b act rand l r).1.length = l.length
  | [], _ => rfl
  | p :: ps, r => by
    simp only [stepParticles, List.length_cons]
    rw [stepParticles_length ops cfg time fw waves a b act rand ps _]

theorem stepParticles_getD (ops : MathOps) (cfg : Config) (time : ℚ)
    (fw : Option Wave) (waves : List Wave) (a b : ℚ) (act : Bool) (rand : ℕ → ℚ) :
    ∀ (l : List Particle) (r k : ℕ), k < l.length →
      ∃ r2, (stepParticles ops cfg time fw waves a b act rand l r).1.getD k default
        = (stepParticle ops cfg time fw waves a b act rand (l.getD k default) r2).1 := by
  intro l
  induction l with
  | nil => intro r k hk; simp at hk
  | cons p ps ih =>
    intro r k hk
    cases k with
    | zero => exact ⟨r, by simp [stepParticles]⟩
    | succ n =>
      obtain ⟨r2, hr2⟩ := ih
        (stepParticle ops cfg time fw waves a b act rand p r).2 n (by simpa using hk)
      exact ⟨r2, by simpa [stepParticles] using hr2⟩

theorem stepParticle_activation (ops : MathOps) (cfg : Config) (time : ℚ)
    (fw : Option Wave) (waves : List Wave) (a b : ℚ) (act : Bool) (rand : ℕ → ℚ)
    (p : Particle) (r : ℕ) :
    (stepParticle ops cfg time fw waves a b act rand p r).1.activation
      = revealUpdate cfg.skipIntro fw p.isText p.activation p.dist := rfl

theorem stepParticle_dist (ops : MathOps) (cfg : Config) (time : ℚ)
    (fw : Option Wave) (waves : List Wave) (a b : ℚ) (act : Bool) (rand : ℕ → ℚ)
    (p : Particle) (r : ℕ) :
    (stepParticle ops cfg time fw waves a b act rand p r).1.dist = p.dist := rfl

theorem stepParticle_angle (ops : MathOps) (cfg : Config) (time : ℚ)
    (fw : Option Wave) (waves : List Wave) (a b : ℚ) (act : Bool) (rand : ℕ → ℚ)
    (p : Particle) (r : ℕ) :
    (stepParticle ops cfg time fw waves a b act rand p r).1.angle = p.angle := rfl

/-! ### C2 — activation monotonicity -/

/-- The activation tracker never decreases activation, keeps it at most 1,
and fixes 1. -/
theorem revealUpdate_mono (si : Bool) (fw : Option Wave) (it : Bool) (act d : ℚ)
    (ha : act ≤ 1) :
    act ≤ revealUpdate si fw it act d ∧ revealUpdate si fw it act d ≤ 1 ∧
      (act = 1 → revealUpdate si fw it act d = 1) := by
  unfold revealUpdate
  cases it with
  | false =>
    rw [if_neg Bool.false_ne_true]
    exact ⟨le_refl _, ha, fun h => h⟩
  | true =>
    rw [if_pos rfl]
    cases si with
    | true =>
      rw [if_pos rfl]
      exact ⟨ha, le_refl _, fun _ => rfl⟩
    | false =>
      rw [if_neg Bool.false_ne_true]
      cases fw with
      | none => exact ⟨le_refl _, ha, fun h => h⟩
      | some w =>
        by_cases hact : act < 1
        · simp only [if_pos hact]
          by_cases hin : d < w.radius - 40
          · simp only [if_pos hin]
            exact ⟨ha, le_refl _, fun _ => trivial⟩
          · simp only [if_neg hin]
            by_cases hout : d < w.radius - 40 + 140
            · simp only [if_pos hout]
              have h0 : (0 : ℚ) ≤ (d - (w.radius - 40)) / 140 :=
                div_nonneg (by linarith [not_lt.mp hin]) (by norm_num)
              refine ⟨le_max_left _ _, max_le ha (by linarith), ?_⟩
              intro h
              exact absurd (h ▸ hact) (lt_irrefl (1 : ℚ))
            · simp only [if_neg hout]
              exact ⟨le_refl _, ha, fun h => h⟩
        · simp only [if_neg hact]
          exact ⟨le_refl _, ha, fun h => h⟩

/-- C2: over a full tick, the activation of a particle never decreases, stays at
most 1, and once it is 1 it stays 1 — for any configuration (in particular
any runtime value of the intro-skip flag) and any wave evolution. -/
theorem C2_activation_monotone (ops : MathOps) (width height : ℚ) (cfg : Config)
    (mouse : Mouse) (delta : ℚ) (rand : ℕ → ℚ) (s : SimState) (r : ℕ) (k : ℕ)
    (ha : (s.particles.getD k default).activation ≤ 1) :
    (s.particles.getD k default).activation
      ≤ ((tick ops width height cfg mouse delta rand s r).1.particles.getD k
          default).activation ∧
    ((tick ops width height cfg mouse delta rand s r).1.particles.getD k
        default).activation ≤ 1 ∧
    ((s.particles.getD k default).activation = 1 →
      ((tick ops width height cfg mouse delta rand s r).1.particles.getD k
          default).activation = 1) := by
  have htick : ∃ time fw waves a b,
      (tick ops width height cfg mouse delta rand s r).1.particles
        = (stepParticles ops cfg time fw waves a b mouse.active rand
            (collisionPhase ops (s.particles, s.ambient)).1 r).1 :=
    ⟨_, _, _, _, _, rfl⟩
  obtain ⟨time, fw, waves, a, b, htick⟩ := htick
  rw [htick]
  obtain ⟨hlen1, hlen2, hc1, hc2⟩ := coreEqState_collisionPhase ops (s.particles, s.ambient)
  by_cases hk : k < s.particles.length
  · obtain ⟨r2, hget⟩ := stepParticles_getD ops cfg time fw waves a b mouse.active rand
      (collisionPhase ops (s.particles, s.ambient)).1 r k (by rw [← hlen1]; exact hk)
    rw [hget, stepParticle_activation]
    obtain ⟨h1, h2, hdist, hang, hit, hact, hrest⟩ := hc1 k
    rw [← hit, ← hact, ← hdist]
    exact revealUpdate_mono cfg.skipIntro fw _ _ _ ha
  · have hk2 : ¬ k < (collisionPhase ops (s.particles, s.ambient)).1.length := by
      rw [← hlen1]; exact hk
    rw [List.getD_eq_default (stepParticles ops cfg time fw waves a b mouse.active rand
        (collisionPhase ops (s.particles, s.ambient)).1 r).1 default (by
      rw [stepParticles_length]
      exact not_lt.mp hk2)]
    rw [List.getD_eq_default s.particles default (not_lt.mp hk)] at ha ⊢
    exact ⟨le_refl _, ha, fun h => h⟩

/-- A half-revealed text particle away from its home. -/
def particleD : Particle := ⟨0, 0, 10, 0, 0, 0, 10000, 0, true, 1 / 2, 0, 0, 0, 1, 1, 11 / 10⟩

/-- A single-particle state holding the half-revealed text particle. -/
def stateD : SimState := ⟨[particleD], [], [], 0, 0⟩

section
attribute [local semireducible] Rat.add Rat.mul Rat.sub Rat.inv Rat.div Rat.ofScientific

/-- C2 witness: the monotonicity theorem applied at a concrete state with a
half-revealed text particle. -/
theorem C2_witness :
    (stateD.particles.getD 0 default).activation ≤ 1 ∧
    ((stateD.particles.getD 0 default).activation
      ≤ ((tick opsA 100 100 cfgRun mouseA 16 randA stateD 0).1.particles.getD 0
          default).activation ∧
    ((tick opsA 100 100 cfgRun mouseA 16 randA stateD 0).1.particles.getD 0
        default).activation ≤ 1 ∧
    ((stateD.particles.getD 0 default).activation = 1 →
      ((tick opsA 100 100 cfgRun mouseA 16 randA stateD 0).1.particles.getD 0
          default).activation = 1)) :=
  ⟨by decide, C2_activation_monotone opsA 100 100 cfgRun mouseA 16 randA stateD 0 0 (by decide)⟩

end

/-! ### C8 — static polar coordinates -/

/-- The per-wave kick computation reads only spawn-time fields (dist,
angle, phase, isText) of the particle, never its live physics fields. -/
theorem waveKick_withPhys (ops : MathOps) (cfg : Config) (time : ℚ) (rand : ℕ → ℚ)
    (p : Particle) (q : Phys) (acc : ℚ × ℚ × ℕ) (w : Wave) :
    waveKick ops cfg time rand (p.withPhys q) acc w = waveKick ops cfg time rand p acc w := rfl

/-- C8: over a full tick the dist and angle of every particle are unchanged (the
collision pass and the integrator touch only position and velocity), and
the activation tracker and the random-draw cursor of a particle step are
invariant under any change of the live position and velocity of the particle —
band membership and reveal timing read only the static spawn distance. -/
theorem C8_static_polar_fields (ops : MathOps) (width height : ℚ) (cfg : Config)
    (mouse : Mouse) (delta : ℚ) (rand : ℕ → ℚ) (s : SimState) (r : ℕ) :
    (∀ k : ℕ,
      ((tick ops width height cfg mouse delta rand s r).1.particles.getD k default).dist
          = (s.particles.getD k default).dist ∧
      ((tick ops width height cfg mouse delta rand s r).1.particles.getD k default).angle
          = (s.particles.getD k default).angle) ∧
    (∀ (p : Particle) (q : Phys) (time : ℚ) (fw : Option Wave) (waves : List Wave)
        (a b : ℚ) (act : Bool) (rand2 : ℕ → ℚ) (r2 : ℕ),
      (stepParticle ops cfg time fw waves a b act rand2 (p.withPhys q) r2).1.activation
          = (stepParticle ops cfg time fw waves a b act rand2 p r2).1.activation ∧
      (stepParticle ops cfg time fw waves a b act rand2 (p.withPhys q) r2).2
          = (stepParticle ops cfg time fw waves a b act rand2 p r2).2) ∧
    (∀ (p : Particle) (q : Phys) (w : Wave),
      inWaveBand cfg.waveThickness (p.withPhys q).dist w
        = inWaveBand cfg.waveThickness p.dist w) := by
  refine ⟨?_, ?_, fun p q w => rfl⟩
  · intro k
    have htick : ∃ time fw waves a b,
        (tick ops width height cfg mouse delta rand s r).1.particles
          = (stepParticles ops cfg time fw waves a b mouse.active rand
              (collisionPhase ops (s.particles, s.ambient)).1 r).1 :=
      ⟨_, _, _, _, _, rfl⟩
    obtain ⟨time, fw, waves, a, b, htick⟩ := htick
    rw [htick]
    obtain ⟨hlen1, hlen2, hc1, hc2⟩ := coreEqState_collisionPhase ops (s.particles, s.ambient)
    by_cases hk : k < s.particles.length
    · obtain ⟨r2, hget⟩ := stepParticles_getD ops cfg time fw waves a b mouse.active rand
        (collisionPhase ops (s.particles, s.ambient)).1 r k (by rw [← hlen1]; exact hk)
      rw [hget, stepParticle_dist, stepParticle_angle]
      obtain ⟨h1, h2, hdist, hang, hrest⟩ := hc1 k
      exact ⟨hdist.symm, hang.symm⟩
    · have hk2 : ¬ k < (collisionPhase ops (s.particles, s.ambient)).1.length := by
        rw [← hlen1]; exact hk
      rw [List.getD_eq_default (stepParticles ops cfg time fw waves a b mouse.active rand
          (collisionPhase ops (s.particles, s.ambient)).1 r).1 default (by
        rw [stepParticles_length]
        exact not_lt.mp hk2)]
      rw [List.getD_eq_default s.particles default (not_lt.mp hk)]
      exact ⟨rfl, rfl⟩
  · intro p q time fw waves a b act rand2 r2
    have hker : waveKick ops cfg time rand2 (p.withPhys q) = waveKick ops cfg time rand2 p :=
      funext fun acc => funext fun w => waveKick_withPhys ops cfg time rand2 p q acc w
    constructor
    · rw [stepParticle_activation, stepParticle_activation]
      rfl
    · show (waves.foldl (waveKick ops cfg time rand2 (p.withPhys q)) (0, 0, r2)).2.2
        = (waves.foldl (waveKick ops cfg time rand2 p) (0, 0, r2)).2.2
      rw [hker]

/-! ### C10 — ambient home positions are write-only -/

/-- The top-up loop appends dust particles whose current position is pinned
at the origin. -/
theorem topUpAmbient_eq_append (width height : ℚ) (rand : ℕ → ℚ) :
    ∀ (k : ℕ) (l : List AmbientParticle) (r : ℕ),
      ∃ gen : List AmbientParticle,
        (topUpAmbient width height rand k l r).1 = l ++ gen ∧
        gen.all (fun a => a.x == 0 && a.y == 0) = true := by
  intro k
  induction k with
  | zero => intro l r; exact ⟨[], by simp [topUpAmbient]⟩
  | succ n ih =>
    intro l r
    simp only [topUpAmbient]
    obtain ⟨gen, hg, hall⟩ := ih (l ++ [topUpParticle width height rand r]) (r + 4)
    refine ⟨topUpParticle width height rand r :: gen, ?_, ?_⟩
    · rw [hg, List.append_assoc]
      rfl
    · rw [List.all_cons, hall]
      simp [topUpParticle]

/-- Zero the home position of an ambient particle. -/
def AmbientParticle.eraseBase (a : AmbientParticle) : AmbientParticle :=
  { a with baseX := 0, baseY := 0 }

/-- Zero every ambient home position of a combined body state. -/
def eraseAmbBases (st : BodyState) : BodyState :=
  (st.1, st.2.map AmbientParticle.eraseBase)

theorem bodyCount_eraseAmb (st : BodyState) : bodyCount (eraseAmbBases st) = bodyCount st := by
  unfold bodyCount eraseAmbBases
  simp

theorem bodyPhys_eraseAmb (st : BodyState) (i : ℕ) :
    bodyPhys (eraseAmbBases st) i = bodyPhys st i := by
  unfold bodyPhys eraseAmbBases
  simp only [List.length_map]
  split
  · rfl
  · split
    · simp only [List.get_eq_getElem, List.getElem_map]
      rfl
    · rfl

theorem bodyMass_eraseAmb (st : BodyState) (i : ℕ) :
    bodyMass (eraseAmbBases st) i = bodyMass st i := by
  unfold bodyMass eraseAmbBases
  simp only [List.length_map]
  split
  · rfl
  · split
    · simp only [List.get_eq_getElem, List.getElem_map]
      rfl
    · rfl

theorem bodyRadius_eraseAmb (st : BodyState) (i : ℕ) :
    bodyRadius (eraseAmbBases st) i = bodyRadius st i := by
  unfold bodyRadius eraseAmbBases
  simp only [List.length_map]
  split
  · rfl
  · split
    · simp only [List.get_eq_getElem, List.getElem_map]
      rfl
    · rfl

theorem setBodyPhys_eraseAmb (st : BodyState) (i : ℕ) (q : Phys) :
    setBodyPhys (eraseAmbBases st) i q = eraseAmbBases (setBodyPhys st i q) := by
  unfold setBodyPhys eraseAmbBases
  simp only [List.length_map]
  by_cases h : i < st.1.length
  · rw [dif_pos h, dif_pos h]
  · by_cases h2 : i - st.1.length < st.2.length
    · rw [dif_neg h, dif_neg h, dif_pos h2, dif_pos h2]
      simp only [List.map_set, List.get_eq_getElem, List.getElem_map]
      rfl
    · rw [dif_neg h, dif_neg h, dif_neg h2, dif_neg h2]

theorem resolvePair_eraseAmb (ops : MathOps) (st : BodyState) (i j : ℕ) :
    resolvePair ops (eraseAmbBases st) i j = eraseAmbBases (resolvePair ops st i j) := by
  simp only [resolvePair, bodyPhys_eraseAmb, bodyMass_eraseAmb, bodyRadius_eraseAmb,
    setBodyPhys_eraseAmb, apply_ite eraseAmbBases]

theorem foldl_eraseAmb {β : Type _} (f : BodyState → β → BodyState)
    (hf : ∀ st b, f (eraseAmbBases st) b = eraseAmbBases (f st b)) :
    ∀ (l : List β) (st : BodyState),
      l.foldl f (eraseAmbBases st) = eraseAmbBases (l.foldl f st)
  | [], _ => rfl
  | b :: bs, st => by
    simp only [List.foldl_cons]
    rw [hf st b]
    exact foldl_eraseAmb f hf bs (f st b)

theorem collisionPhase_eraseAmb (ops : MathOps) (st : BodyState) :
    collisionPhase ops (eraseAmbBases st) = eraseAmbBases (collisionPhase ops st) := by
  simp only [collisionPhase, bodyCount_eraseAmb, bodyPhys_eraseAmb]
  refine foldl_eraseAmb _ (fun st2 i => ?_) _ _
  dsimp only
  rw [bodyPhys_eraseAmb]
  refine foldl_eraseAmb _ (fun st3 ox => ?_) _ _
  dsimp only
  refine foldl_eraseAmb _ (fun st4 oy => ?_) _ _
  dsimp only
  refine foldl_eraseAmb _ (fun st5 j => ?_) _ _
  dsimp only
  split
  · rfl
  · exact resolvePair_eraseAmb ops st5 i j

theorem stepAmbient_eraseBase (ops : MathOps) (cfg : Config) (a b : ℚ) (act : Bool)
    (rand : ℕ → ℚ) (d : AmbientParticle) (r : ℕ) :
    stepAmbient ops cfg a b act rand (AmbientParticle.eraseBase d) r
      = ((stepAmbient ops cfg a b act rand d r).1.eraseBase,
         (stepAmbient ops cfg a b act rand d r).2) := by
  cases d
  rfl

theorem stepAmbients_eraseBase (ops : MathOps) (cfg : Config) (a b : ℚ) (act : Bool)
    (rand : ℕ → ℚ) :
    ∀ (l : List AmbientParticle) (r : ℕ),
      stepAmbients ops cfg a b act rand (l.map AmbientParticle.eraseBase) r
        = ((stepAmbients ops cfg a b act rand l r).1.map AmbientParticle.eraseBase,
           (stepAmbients ops cfg a b act rand l r).2)
  | [], _ => rfl
  | d :: ds, r => by
    simp only [List.map_cons, stepAmbients]
    rw [stepAmbient_eraseBase]
    rw [stepAmbients_eraseBase ops cfg a b act rand ds _]

/-- C10: dust particles synthesized by the top-up loop are created at the
origin (not at their random home), and the whole tick commutes with zeroing
every ambient home position: ambient motion never reads baseX or baseY. -/
theorem C10_ambient_independence (ops : MathOps) (width height : ℚ) (cfg : Config)
    (mouse : Mouse) (delta : ℚ) (rand : ℕ → ℚ) (s : SimState) (r : ℕ)
    (wq hq : ℚ) (rand2 : ℕ → ℚ) (k : ℕ) (l : List AmbientParticle) (r2 : ℕ) :
    (((topUpAmbient wq hq rand2 k l r2).1.drop l.length).all
        (fun a => a.x == 0 && a.y == 0) = true) ∧
    (tick ops width height cfg mouse delta rand
        { s with ambient := s.ambient.map AmbientParticle.eraseBase } r).1
      = { (tick ops width height cfg mouse delta rand s r).1 with
          ambient := ((tick ops width height cfg mouse delta rand s r).1.ambient.map
            AmbientParticle.eraseBase) } ∧
    (tick ops width height cfg mouse delta rand
        { s with ambient := s.ambient.map AmbientParticle.eraseBase } r).2
      = (tick ops width height cfg mouse delta rand s r).2 := by
  refine ⟨?_, ?_, ?_⟩
  · obtain ⟨gen, hg, hall⟩ := topUpAmbient_eq_append wq hq rand2 k l r2
    rw [hg, List.drop_left]
    exact hall
  · simp only [tick]
    rw [show ((s.particles : List Particle), s.ambient.map AmbientParticle.eraseBase)
        = eraseAmbBases (s.particles, s.ambient) from rfl, collisionPhase_eraseAmb]
    simp only [eraseAmbBases]
    rw [stepAmbients_eraseBase]
  · simp only [tick]
    rw [show ((s.particles : List Particle), s.ambient.map AmbientParticle.eraseBase)
        = eraseAmbBases (s.particles, s.ambient) from rfl, collisionPhase_eraseAmb]
    simp only [eraseAmbBases]
    rw [stepAmbients_eraseBase]

/-! ### Supporting invariants: the hypotheses of C2 and C4 hold along runs -/

/-- The wave-phase invariant behind C4: starting from a descending list of
nonnegative radii (trivially true for the initial empty list), the wave
phase yields again a descending list of nonnegative radii. -/
theorem waveUpdate_preserves_invariant (ops : MathOps) (cfg : Config)
    (width height delta : ℚ) (waves : List Wave) (tslw : ℚ)
    (hd : 0 ≤ delta) (hs : 0 ≤ cfg.waveSpeed)
    (hsort : waves.Pairwise (fun a b => b.radius ≤ a.radius))
    (hpos : ∀ w ∈ waves, 0 ≤ w.radius) :
    (waveUpdate ops cfg width height delta waves tslw).1.Pairwise
        (fun a b => b.radius ≤ a.radius) ∧
    ∀ w ∈ (waveUpdate ops cfg width height delta waves tslw).1, 0 ≤ w.radius := by
  have hgs : (waves.map (fun w => Wave.mk (w.radius + delta * cfg.waveSpeed))).Pairwise
      (fun a b => b.radius ≤ a.radius) := by
    refine List.Pairwise.map _ (fun a b h => ?_) hsort
    simpa using add_le_add_right h (delta * cfg.waveSpeed)
  have hgp : ∀ w ∈ waves.map (fun w => Wave.mk (w.radius + delta * cfg.waveSpeed)),
      0 ≤ w.radius := by
    intro w hw
    rw [List.mem_map] at hw
    obtain ⟨v, hv, rfl⟩ := hw
    have h1 := hpos v hv
    have h2 : 0 ≤ delta * cfg.waveSpeed := mul_nonneg hd hs
    simpa using by linarith
  have hks : ((waves.map (fun w => Wave.mk (w.radius + delta * cfg.waveSpeed))).dropWhile
      (fun w => decide (ops.hypot width height + 200 < w.radius))).Pairwise
      (fun a b => b.radius ≤ a.radius) :=
    List.Pairwise.sublist (List.dropWhile_sublist _) hgs
  have hkp : ∀ w ∈ (waves.map (fun w => Wave.mk (w.radius + delta * cfg.waveSpeed))).dropWhile
      (fun w => decide (ops.hypot width height + 200 < w.radius)), 0 ≤ w.radius :=
    fun w hw => hgp w ((List.dropWhile_sublist _).subset hw)
  have happs : (((waves.map (fun w => Wave.mk (w.radius + delta * cfg.waveSpeed))).dropWhile
      (fun w => decide (ops.hypot width height + 200 < w.radius))) ++ [Wave.mk 0]).Pairwise
      (fun a b => b.radius ≤ a.radius) := by
    rw [List.pairwise_append]
    refine ⟨hks, List.pairwise_singleton _ _, ?_⟩
    intro a ha b hb
    rw [List.mem_singleton] at hb
    subst hb
    exact hkp a ha
  have happp : ∀ w ∈ (((waves.map (fun w => Wave.mk (w.radius + delta * cfg.waveSpeed))).dropWhile
      (fun w => decide (ops.hypot width height + 200 < w.radius))) ++ [Wave.mk 0]),
      0 ≤ w.radius := by
    intro w hw
    rw [List.mem_append] at hw
    rcases hw with hw | hw
    · exact hkp w hw
    · rw [List.mem_singleton] at hw
      subst hw
      exact le_refl 0
  simp only [waveUpdate]
  split_ifs
  · exact ⟨happs, happp⟩
  · exact ⟨happs, happp⟩
  · exact ⟨hks, hkp⟩

/-- The activation invariant behind C2: every particle created by the mask
build starts with activation 0 (text) or 1 (background), hence at most 1. -/
theorem createMask_activation_le_one (ops : MathOps) (cfg : Config) (alpha : ℕ → ℕ → ℕ)
    (width height wordLen : ℕ) (rand : ℕ → ℚ) (r : ℕ) :
    ((createMask ops cfg alpha width height wordLen rand r).1.particles.all
        (fun p => decide (p.activation ≤ 1))) = true := by
  have hfold : ∀ (pts : List (ℕ × ℕ)) (cX cY wX wY : ℚ) (target : ℤ)
      (st : List Particle × List AmbientParticle × ℕ),
      (st.1.all (fun p => decide (p.activation ≤ 1))) = true →
      ((pts.foldl (spawnStep ops alpha cX cY wX wY target rand) st).1.all
        (fun p => decide (p.activation ≤ 1))) = true := by
    intro pts
    induction pts with
    | nil => intro _ _ _ _ _ _ h; exact h
    | cons q qs ih =>
      intro cX cY wX wY target st hp
      refine ih cX cY wX wY target _ ?_
      simp only [spawnStep]
      split_ifs <;>
        simp only [hp, List.all_append, List.all_cons, List.all_nil, Bool.and_self,
          Bool.true_and, Bool.and_true]
      all_goals simp
  by_cases h : width = 0 ∨ height = 0
  · simp [createMask, h]
  · simp only [createMask, if_neg h]
    exact hfold _ _ _ _ _ _ ([], [], r) rfl

end Pluribus
